import Mathlib

namespace TodoApp

/-!
Shallow embedding of the task-routes module (`backend/routes/tasks.js`) of a
full-stack to-do application.  Tasks live in a document store modelled as a
`List Task`; each Express handler becomes a pure Lean function from the
store, the authenticated user and the request data to a response value
(status code, payload, resulting store).
-/

/-- A task record, mirroring the fields used by the routes and described by
the data model.  `user` is the owner reference; `dueDate` keeps the raw
date value; `createdAt`/`updatedAt` are timestamps as integers. -/
structure Task where
  id : String
  title : String
  description : Option String
  completed : Bool
  priority : String
  dueDate : Option String
  user : String
  createdAt : Int
  updatedAt : Int
deriving Repr, DecidableEq

/-- Modelled from the spec: `backend/models/Task.js` is not among the
sources; the spec states that `completed` defaults to `false` at creation
(schema default applied by `new Task({...})` when the route omits the
field). -/
def taskSchemaDefaultCompleted : Bool := false

/-- JS `String.prototype.trim`: strips whitespace from both ends. -/
def jsTrim (s : String) : String :=
  ⟨(((s.toList.dropWhile Char.isWhitespace).reverse).dropWhile
      Char.isWhitespace).reverse⟩

/-- The value of a decimal digit character. -/
def digitVal (c : Char) : Nat := c.toNat - 48

/-- JS `parseInt` restricted to radix 10: skip leading whitespace, optional
sign, read the leading run of digits; `none` models `NaN`. -/
def parseIntJS (s : String) : Option Int :=
  let cs := s.toList.dropWhile Char.isWhitespace
  let signRest : Int × List Char :=
    match cs with
    | '-' :: r => (-1, r)
    | '+' :: r => (1, r)
    | r => (1, r)
  let digits := signRest.2.takeWhile Char.isDigit
  if digits.isEmpty then none
  else some (signRest.1 * (digits.foldl (fun n c => 10 * n + digitVal c) 0 : Nat))

/-- validator.js `isMongoId`: exactly 24 hexadecimal characters. -/
def isMongoId (s : String) : Bool :=
  s.toList.length == 24 &&
  s.toList.all (fun c =>
    c.isDigit || ('a' ≤ c && c ≤ 'f') || ('A' ≤ c && c ≤ 'F'))

/-- Abstraction of validator.js `isISO8601`: the value starts with a
`YYYY-MM-DD` calendar date.  (External library; no claim depends on its
exact boundary behaviour.) -/
def isISO8601 (s : String) : Bool :=
  let cs := s.toList
  decide (cs.length ≥ 10) &&
  (cs.take 4).all Char.isDigit &&
  ((cs.drop 4).take 1 == ['-']) &&
  ((cs.drop 5).take 2).all Char.isDigit &&
  ((cs.drop 7).take 1 == ['-']) &&
  ((cs.drop 8).take 2).all Char.isDigit

/-- Query-string parameters of `GET /api/tasks`; `none` is an absent
parameter. -/
structure GetQuery where
  completed : Option String
  priority : Option String
  sort : Option String
  limit : Option String
  skip : Option String
deriving Repr, DecidableEq

/-- The filter built by the GET handler: always `user == req.user._id`;
`completed` compares against the literal string `"true"` when present;
`priority` is added when present and truthy (the empty string is falsy in
JS, so it adds no clause). -/
def matchesFilter (owner : String) (q : GetQuery) (t : Task) : Bool :=
  t.user == owner &&
  (match q.completed with
   | none => true
   | some c => t.completed == (c == "true")) &&
  (match q.priority with
   | none => true
   | some p => p == "" || t.priority == p)

/-- `sort.startsWith('-')`: whether the first character is a dash. -/
def startsWithDash (s : String) : Bool :=
  match s.toList with
  | '-' :: _ => true
  | _ => false

/-- Sort-string parsing: a leading `-` yields direction `-1` on the rest of
the string (`sort.substring(1)`), otherwise direction `1` on the whole
string. -/
def parseSort (s : String) : String × Int :=
  if startsWithDash s then (s.drop 1, -1) else (s, 1)

/-- The sort specification the GET handler uses: the `sort` parameter
defaults to `"-createdAt"` when absent. -/
def getSortSpec (q : GetQuery) : String × Int :=
  parseSort (q.sort.getD "-createdAt")

/-- Comparison on a named task field, modelling the store's single-field
ascending order; unknown fields compare as equal. -/
def taskFieldLe (field : String) (a b : Task) : Bool :=
  match field with
  | "createdAt" => a.createdAt ≤ b.createdAt
  | "updatedAt" => a.updatedAt ≤ b.updatedAt
  | "title" => a.title ≤ b.title
  | "priority" => a.priority ≤ b.priority
  | "dueDate" => a.dueDate.getD "" ≤ b.dueDate.getD ""
  | _ => true

/-- Store-side comparator for a parsed sort specification: direction `1`
sorts ascending, anything else (the handler only produces `-1`)
descending. -/
def sortComparator (spec : String × Int) (a b : Task) : Bool :=
  if spec.2 = 1 then taskFieldLe spec.1 a b else taskFieldLe spec.1 b a

/-- Inserts a task into a list kept ordered by the comparator. -/
def insertSorted (le : Task → Task → Bool) (t : Task) : List Task → List Task
  | [] => [t]
  | u :: us => if le t u then t :: u :: us else u :: insertSorted le t us

/-- The store-side sort of the filtered result set (the document store is
external; any total reordering by the comparator is a faithful model). -/
def sortTasks (le : Task → Task → Bool) : List Task → List Task
  | [] => []
  | t :: ts => insertSorted le t (sortTasks le ts)

/-- `limit` as the handler sees it: default `10` when absent, otherwise
`parseInt` of the supplied string. -/
def parsedLimit (q : GetQuery) : Option Int :=
  match q.limit with
  | none => some 10
  | some s => parseIntJS s

/-- `skip` as the handler sees it: default `0` when absent, otherwise
`parseInt` of the supplied string. -/
def parsedSkip (q : GetQuery) : Option Int :=
  match q.skip with
  | none => some 0
  | some s => parseIntJS s

/-- Applies the pagination window to the sorted result list; `none` models
`NaN` (the source leaves that behaviour undefined, the page is modelled as
unchanged there), negative values clamp to zero. -/
def applySkipLimit (l : List Task) (skip limit : Option Int) : List Task :=
  let l1 := match skip with
    | some k => l.drop k.toNat
    | none => l
  match limit with
  | some m => l1.take m.toNat
  | none => l1

/-- `hasMore := total > parseInt(skip) + parseInt(limit)`; in JS any
comparison against `NaN` is false. -/
def hasMoreCalc (total : Int) (skip limit : Option Int) : Bool :=
  match skip, limit with
  | some k, some l => total > k + l
  | _, _ => false

/-- The successful GET response: the page of tasks plus the pagination
block. -/
structure GetResponse where
  tasks : List Task
  total : Int
  limit : Option Int
  skip : Option Int
  hasMore : Bool
deriving Repr, DecidableEq

/-- The GET `/api/tasks` handler: build the filter with the requester as
owner, sort, paginate, count the filter matches, and report pagination
metadata. -/
def getTasks (store : List Task) (owner : String) (q : GetQuery) : GetResponse :=
  let filtered := store.filter (matchesFilter owner q)
  let sorted := sortTasks (sortComparator (getSortSpec q)) filtered
  let l := parsedLimit q
  let k := parsedSkip q
  { tasks := applySkipLimit sorted k l
    total := (filtered.length : Int)
    limit := l
    skip := k
    hasMore := hasMoreCalc (filtered.length : Int) k l }

/-- Body of `POST /api/tasks`.  Besides the four fields the route reads,
clients may also supply `completed` or `user`; they are carried here so the
model can show the handler never looks at them. -/
structure CreateBody where
  title : Option String
  description : Option String
  priority : Option String
  dueDate : Option String
  completed : Option Bool
  user : Option String
deriving Repr, DecidableEq

/-- The `body('title').isLength({min:1,max:100})` validator.  It runs on
the raw value — the `.trim()` sanitizer comes after it in the chain — and a
missing value fails it (the field is not `optional()`). -/
def titleInvalid (title : Option String) : Bool :=
  match title with
  | none => true
  | some s => !(1 ≤ s.length && s.length ≤ 100)

/-- The optional `description` validator: when present, `isLength({max:500})`
on the raw value. -/
def descriptionInvalid (d : Option String) : Bool :=
  match d with
  | none => false
  | some s => !(s.length ≤ 500)

/-- The optional `priority` validator: `isIn(['low','medium','high'])`. -/
def priorityInvalid (p : Option String) : Bool :=
  match p with
  | none => false
  | some s => !(s == "low" || s == "medium" || s == "high")

/-- The optional `dueDate` validator: `isISO8601`. -/
def dueDateInvalid (d : Option String) : Bool :=
  match d with
  | none => false
  | some s => !(isISO8601 s)

/-- `validationResult(req)` for the create route: the accumulated list of
failed fields, in chain order.  Every failing chain contributes an entry;
none short-circuits. -/
def createValidationErrors (b : CreateBody) : List String :=
  (if titleInvalid b.title then ["title"] else []) ++
  (if descriptionInvalid b.description then ["description"] else []) ++
  (if priorityInvalid b.priority then ["priority"] else []) ++
  (if dueDateInvalid b.dueDate then ["dueDate"] else [])

/-- Response of a mutating route: HTTP status, the task in the payload (if
any), the `errors` field list of a 400, and the store after the request. -/
structure MutResponse where
  status : Nat
  task : Option Task
  errors : List String
  store : List Task
deriving Repr, DecidableEq

/-- The POST `/api/tasks` handler.  On validation failure: 400 with all
collected errors and an untouched store.  Otherwise it destructures only
`title`, `description`, `priority`, `dueDate` from the body (sanitized, so
`title`/`description` arrive trimmed), builds the task with
`priority || 'medium'`, the requester as `user`, and the schema default for
`completed`, saves it, and returns 201. -/
def postTask (store : List Task) (owner : String) (b : CreateBody)
    (newId : String) (now : Int) : MutResponse :=
  let errs := createValidationErrors b
  if errs.isEmpty then
    let title := jsTrim (b.title.getD "")
    let priority := match b.priority with
      | some p => if p == "" then "medium" else p
      | none => "medium"
    let t : Task :=
      { id := newId
        title := title
        description := b.description.map jsTrim
        completed := taskSchemaDefaultCompleted
        priority := priority
        dueDate := b.dueDate
        user := owner
        createdAt := now
        updatedAt := now }
    { status := 201, task := some t, errors := [], store := store ++ [t] }
  else
    { status := 400, task := none, errors := errs, store := store }

/-- Body of `PUT /api/tasks/:id`: every editable field optional, plus a
possible `user` field, which the route passes straight through to the
store as part of `updates = req.body`. -/
structure UpdateBody where
  title : Option String
  description : Option String
  completed : Option Bool
  priority : Option String
  dueDate : Option String
  user : Option String
deriving Repr, DecidableEq

/-- The optional `title` validator of the update route: same bounds as
create, but only when the field is present. -/
def titleUpdateInvalid (title : Option String) : Bool :=
  match title with
  | none => false
  | some s => !(1 ≤ s.length && s.length ≤ 100)

/-- `validationResult(req)` for the update route: the `param('id')`
`isMongoId` chain plus the optional body-field chains, all collected. -/
def updateValidationErrors (id : String) (b : UpdateBody) : List String :=
  (if isMongoId id then [] else ["id"]) ++
  (if titleUpdateInvalid b.title then ["title"] else []) ++
  (if descriptionInvalid b.description then ["description"] else []) ++
  (if priorityInvalid b.priority then ["priority"] else []) ++
  (if dueDateInvalid b.dueDate then ["dueDate"] else [])

/-- The `$set` document `findOneAndUpdate` applies: exactly the fields
present in `req.body` (with `title`/`description` trimmed by their
sanitizers), and `updatedAt` refreshed by the schema timestamps. -/
def applyUpdates (b : UpdateBody) (now : Int) (t : Task) : Task :=
  { t with
    title := match b.title with
      | some s => jsTrim s
      | none => t.title
    description := match b.description with
      | some s => some (jsTrim s)
      | none => t.description
    completed := b.completed.getD t.completed
    priority := b.priority.getD t.priority
    dueDate := match b.dueDate with
      | some s => some s
      | none => t.dueDate
    user := b.user.getD t.user
    updatedAt := now }

/-- `Task.findOneAndUpdate(cond, ·, {new:true})` over the store: rewrite
the first record satisfying the condition and return the updated document;
`none` when nothing matches. -/
def findOneAndUpdate (store : List Task) (cond : Task → Bool)
    (f : Task → Task) : Option Task × List Task :=
  match store with
  | [] => (none, [])
  | t :: ts =>
    if cond t then (some (f t), f t :: ts)
    else
      let r := findOneAndUpdate ts cond f
      (r.1, t :: r.2)

/-- `Task.findOneAndDelete(cond)` over the store: remove the first record
satisfying the condition and return it; `none` when nothing matches. -/
def findOneAndDelete (store : List Task) (cond : Task → Bool) :
    Option Task × List Task :=
  match store with
  | [] => (none, [])
  | t :: ts =>
    if cond t then (some t, ts)
    else
      let r := findOneAndDelete ts cond
      (r.1, t :: r.2)

/-- The PUT `/api/tasks/:id` handler: 400 with the collected errors when
validation fails (before any store access); otherwise
`findOneAndUpdate({_id: id, user: req.user._id}, req.body)` — 404 when no
owned match, 200 with the updated record on success. -/
def putTask (store : List Task) (owner id : String) (b : UpdateBody)
    (now : Int) : MutResponse :=
  let errs := updateValidationErrors id b
  if errs.isEmpty then
    let r := findOneAndUpdate store
      (fun t => t.id == id && t.user == owner) (applyUpdates b now)
    match r.1 with
    | none => { status := 404, task := none, errors := [], store := r.2 }
    | some t => { status := 200, task := some t, errors := [], store := r.2 }
  else
    { status := 400, task := none, errors := errs, store := store }

/-- `validationResult(req)` for the delete route: only the `param('id')`
`isMongoId` chain. -/
def deleteValidationErrors (id : String) : List String :=
  if isMongoId id then [] else ["id"]

/-- The DELETE `/api/tasks/:id` handler: 400 on a malformed id (before any
store access); otherwise `findOneAndDelete({_id: id, user: req.user._id})`
— 404 when no owned match, 200 on success. -/
def deleteTask (store : List Task) (owner id : String) : MutResponse :=
  let errs := deleteValidationErrors id
  if errs.isEmpty then
    let r := findOneAndDelete store (fun t => t.id == id && t.user == owner)
    match r.1 with
    | none => { status := 404, task := none, errors := [], store := r.2 }
    | some _ => { status := 200, task := none, errors := [], store := r.2 }
  else
    { status := 400, task := none, errors := errs, store := store }

/-! ## General lemmas about the embedding -/

theorem mem_of_mem_insertSorted {le : Task → Task → Bool} {t u : Task}
    {l : List Task} (h : u ∈ insertSorted le t l) : u = t ∨ u ∈ l := by
  induction l with
  | nil => simp [insertSorted] at h; simp [h]
  | cons a as ih =>
    unfold insertSorted at h
    by_cases hle : le t a = true
    · simp [hle] at h
      rcases h with h | h | h
      · exact Or.inl h
      · exact Or.inr (by simp [h])
      · exact Or.inr (List.mem_cons_of_mem _ h)
    · simp [hle] at h
      rcases h with h | h
      · exact Or.inr (by simp [h])
      · rcases ih h with h' | h'
        · exact Or.inl h'
        · exact Or.inr (List.mem_cons_of_mem _ h')

theorem mem_of_mem_sortTasks {le : Task → Task → Bool} {u : Task}
    {l : List Task} (h : u ∈ sortTasks le l) : u ∈ l := by
  induction l with
  | nil => simp [sortTasks] at h
  | cons a as ih =>
    unfold sortTasks at h
    rcases mem_of_mem_insertSorted h with h' | h'
    · simp [h']
    · exact List.mem_cons_of_mem _ (ih h')

theorem mem_of_mem_applySkipLimit {t : Task} {l : List Task}
    {k m : Option Int} (h : t ∈ applySkipLimit l k m) : t ∈ l := by
  unfold applySkipLimit at h
  cases k <;> cases m <;> simp only at h
  · exact h
  · exact List.take_subset _ _ h
  · exact List.drop_subset _ _ h
  · exact List.drop_subset _ _ (List.take_subset _ _ h)

theorem matchesFilter_user {owner : String} {q : GetQuery} {t : Task}
    (h : matchesFilter owner q t = true) : t.user = owner := by
  unfold matchesFilter at h
  simp only [Bool.and_eq_true, beq_iff_eq] at h
  exact h.1.1

/-! ## Concrete fixtures used by witnesses and counterexamples -/

/-- A sample stored task owned by `"alice"`, with a well-formed store id. -/
def sampleTask : Task :=
  { id := "aaaaaaaaaaaaaaaaaaaaaaaa", title := "x", description := none,
    completed := false, priority := "medium", dueDate := none,
    user := "alice", createdAt := 1, updatedAt := 1 }

/-- A GET query with every parameter absent. -/
def emptyQuery : GetQuery :=
  { completed := none, priority := none, sort := none, limit := none,
    skip := none }

/-- A GET query with `limit=5` and `skip=0`. -/
def pagedQuery : GetQuery :=
  { completed := none, priority := none, sort := none, limit := some "5",
    skip := some "0" }

/-- An update body with no field supplied. -/
def emptyUpdate : UpdateBody :=
  { title := none, description := none, completed := none, priority := none,
    dueDate := none, user := none }

/-- A create body carrying only a title. -/
def titleOnlyBody (t : Option String) : CreateBody :=
  { title := t, description := none, priority := none, dueDate := none,
    completed := none, user := none }

/-- A create body violating both the title and the priority constraint. -/
def badCreateBody : CreateBody :=
  { title := some "", description := none, priority := some "urgent",
    dueDate := none, completed := none, user := none }

/-- A GET query requesting an ascending sort on `title`. -/
def titleSortQuery : GetQuery :=
  { emptyQuery with sort := some "title" }

/-- An update body that only smuggles in a new `user` value. -/
def ownerOverwriteBody : UpdateBody :=
  { emptyUpdate with user := some "bob" }

/-- A create body that additionally supplies `completed` and `user`. -/
def sneakyCreateBody : CreateBody :=
  { title := some "Buy milk", description := none, priority := none,
    dueDate := none, completed := some true, user := some "bob" }

/-- The task `postTask` builds for `sneakyCreateBody` on an empty store. -/
def sneakyCreatedTask : Task :=
  { id := "b", title := "Buy milk", description := none, completed := false,
    priority := "medium", dueDate := none, user := "alice", createdAt := 5,
    updatedAt := 5 }

/-! ## Claim theorems -/

/-- C1: the query filter always pins `user` to the authenticated requester,
so every task in a GET `/tasks` result list is owned by the requester,
whatever the query parameters are; no other user's task can appear. -/
theorem getTasks_owner_scoped (store : List Task) (owner : String)
    (q : GetQuery) (t : Task) (h : t ∈ (getTasks store owner q).tasks) :
    t.user = owner := by
  have h' : t ∈ applySkipLimit
      (sortTasks (sortComparator (getSortSpec q))
        (store.filter (matchesFilter owner q)))
      (parsedSkip q) (parsedLimit q) := h
  have h2 := mem_of_mem_applySkipLimit h'
  have h3 : t ∈ store.filter (matchesFilter owner q) :=
    mem_of_mem_sortTasks h2
  exact matchesFilter_user (List.mem_filter.1 h3).2

theorem getTasks_owner_scoped_witness :
    sampleTask.user = "alice" :=
  getTasks_owner_scoped [sampleTask] "alice" emptyQuery sampleTask (by decide)

/-- C2: on a successful GET `/tasks`, whenever `skip` and `limit` parse to
integers, `hasMore` is true exactly when the total count of filter matches
exceeds `skip + limit`. -/
theorem getTasks_hasMore_iff (store : List Task) (owner : String)
    (q : GetQuery) (k l : Int) (hk : parsedSkip q = some k)
    (hl : parsedLimit q = some l) :
    ((getTasks store owner q).hasMore = true ↔
      (getTasks store owner q).total > k + l) := by
  have h1 : (getTasks store owner q).hasMore =
      hasMoreCalc ((store.filter (matchesFilter owner q)).length : Int)
        (parsedSkip q) (parsedLimit q) := rfl
  have h2 : (getTasks store owner q).total =
      ((store.filter (matchesFilter owner q)).length : Int) := rfl
  rw [h1, h2, hk, hl]
  simp [hasMoreCalc]

theorem getTasks_hasMore_iff_witness :
    ((getTasks [sampleTask] "alice" pagedQuery).hasMore = true ↔
      (getTasks [sampleTask] "alice" pagedQuery).total > 0 + 5) :=
  getTasks_hasMore_iff [sampleTask] "alice" pagedQuery 0 5
    (by decide) (by decide)

/-- The `errors` field of a POST response is always the collected
validator output (empty on the success path, where validation passed). -/
theorem postTask_errors (store : List Task) (owner : String)
    (b : CreateBody) (newId : String) (now : Int) :
    (postTask store owner b newId now).errors = createValidationErrors b := by
  unfold postTask
  by_cases h : (createValidationErrors b).isEmpty
  · simp only [h, if_true]
    exact (List.isEmpty_iff.mp h).symm
  · simp only [h, Bool.false_eq_true, if_false]

/-- A failed `title` chain contributes exactly the `"title"` entry. -/
theorem mem_title_createValidationErrors (b : CreateBody) :
    "title" ∈ createValidationErrors b ↔ titleInvalid b.title = true := by
  unfold createValidationErrors
  split_ifs <;> simp_all

/-- C3: a valid create request that omits `priority` succeeds with 201 and
the created task has `completed == false`, `priority == "medium"` and the
requester as owner. -/
theorem postTask_default_priority_completed (store : List Task)
    (owner : String) (b : CreateBody) (newId : String) (now : Int)
    (hp : b.priority = none) (hv : createValidationErrors b = []) :
    (postTask store owner b newId now).status = 201 ∧
    ∃ t, (postTask store owner b newId now).task = some t ∧
      t.completed = false ∧ t.priority = "medium" ∧ t.user = owner := by
  constructor
  · simp [postTask, hv]
  · simp only [postTask, hv, hp, List.isEmpty_nil, if_true,
      taskSchemaDefaultCompleted]
    exact ⟨_, rfl, rfl, rfl, rfl⟩

theorem postTask_default_priority_completed_witness :
    (postTask [] "alice" (titleOnlyBody (some "Buy milk")) "b" 5).status
        = 201 ∧
    ∃ t, (postTask [] "alice" (titleOnlyBody (some "Buy milk")) "b" 5).task
        = some t ∧
      t.completed = false ∧ t.priority = "medium" ∧ t.user = "alice" :=
  postTask_default_priority_completed [] "alice"
    (titleOnlyBody (some "Buy milk")) "b" 5 (by decide) (by decide)

/-- C4 counterexample: the `.trim()` sanitizer runs after the `isLength`
check, so a title consisting of a single space — whose trimmed length is 0,
outside 1–100 — passes validation, and the create succeeds (storing the
title trimmed to the empty string) instead of failing with a `title`
error. -/
theorem createTitle_whitespace_accepted :
    (jsTrim " ").length = 0 ∧
    "title" ∉ createValidationErrors (titleOnlyBody (some " ")) ∧
    (postTask [] "alice" (titleOnlyBody (some " ")) "b" 5).status = 201 ∧
    ((postTask [] "alice" (titleOnlyBody (some " ")) "b" 5).task.map
      (fun t => t.title)) = some "" :=
  ⟨by decide, by decide, by decide, by decide⟩

/-- C4 amended: the title check applies to the raw, untrimmed value — the
create fails with a `title` errors entry exactly when `title` is missing or
its raw length is outside 1–100; trimming happens only after validation. -/
theorem postTask_title_error_iff_raw_length (store : List Task)
    (owner : String) (b : CreateBody) (newId : String) (now : Int) :
    ("title" ∈ (postTask store owner b newId now).errors ↔
      (b.title = none ∨
        ∃ s, b.title = some s ∧ ¬(1 ≤ s.length ∧ s.length ≤ 100))) := by
  rw [postTask_errors, mem_title_createValidationErrors]
  cases h : b.title with
  | none => simp [titleInvalid]
  | some s => simp [titleInvalid]; omega

/-- C5: when several field constraints are violated at once, the 400
response lists an entry for every violated field, not only the first. -/
theorem postTask_collects_all_field_errors (store : List Task)
    (owner : String) (b : CreateBody) (newId : String) (now : Int) :
    (titleInvalid b.title = true →
      "title" ∈ (postTask store owner b newId now).errors) ∧
    (descriptionInvalid b.description = true →
      "description" ∈ (postTask store owner b newId now).errors) ∧
    (priorityInvalid b.priority = true →
      "priority" ∈ (postTask store owner b newId now).errors) ∧
    (dueDateInvalid b.dueDate = true →
      "dueDate" ∈ (postTask store owner b newId now).errors) ∧
    (createValidationErrors b ≠ [] →
      (postTask store owner b newId now).status = 400) := by
  simp only [postTask_errors]
  refine ⟨fun h => ?_, fun h => ?_, fun h => ?_, fun h => ?_, fun h => ?_⟩
  · simp [createValidationErrors, h]
  · simp [createValidationErrors, h]
  · simp [createValidationErrors, h]
  · simp [createValidationErrors, h]
  · unfold postTask
    have h2 : (createValidationErrors b).isEmpty = false := by
      simpa [List.isEmpty_iff] using h
    simp only [h2, Bool.false_eq_true, if_false]

theorem postTask_collects_all_field_errors_witness :
    "title" ∈ (postTask [] "alice" badCreateBody "b" 5).errors ∧
    "priority" ∈ (postTask [] "alice" badCreateBody "b" 5).errors :=
  ⟨(postTask_collects_all_field_errors [] "alice" badCreateBody "b" 5).1
      (by decide),
   (postTask_collects_all_field_errors [] "alice" badCreateBody "b" 5).2.2.1
      (by decide)⟩

/-- C6: the query builder produces a single-field sort specification — a
leading dash yields descending order on the rest of the string, otherwise
ascending order on the whole string, and an absent `sort` parameter
defaults to descending on `createdAt`. -/
theorem getSortSpec_single_field (q : GetQuery) (s : String) :
    (q.sort = none → getSortSpec q = ("createdAt", -1)) ∧
    (q.sort = some s → startsWithDash s = true →
      getSortSpec q = (s.drop 1, -1)) ∧
    (q.sort = some s → startsWithDash s = false →
      getSortSpec q = (s, 1)) := by
  refine ⟨fun h => ?_, fun h hd => ?_, fun h hd => ?_⟩
  · simp only [getSortSpec, h, Option.getD_none]
    decide
  · simp [getSortSpec, h, parseSort, hd]
  · simp [getSortSpec, h, parseSort, hd]

theorem getSortSpec_single_field_witness :
    getSortSpec emptyQuery = ("createdAt", -1) ∧
    getSortSpec titleSortQuery = ("title", 1) :=
  ⟨(getSortSpec_single_field emptyQuery "x").1 rfl,
   (getSortSpec_single_field titleSortQuery "title").2.2 rfl (by decide)⟩

/-- When no record satisfies the condition, `findOneAndUpdate` returns no
document and leaves the store as it was. -/
theorem findOneAndUpdate_no_match {store : List Task} {cond : Task → Bool}
    {f : Task → Task} (h : ∀ t ∈ store, cond t = false) :
    findOneAndUpdate store cond f = (none, store) := by
  induction store with
  | nil => rfl
  | cons a as ih =>
    unfold findOneAndUpdate
    rw [h a (by simp)]
    simp only [Bool.false_eq_true, if_false]
    rw [ih (fun t ht => h t (List.mem_cons_of_mem _ ht))]

/-- When no record satisfies the condition, `findOneAndDelete` returns no
document and leaves the store as it was. -/
theorem findOneAndDelete_no_match {store : List Task} {cond : Task → Bool}
    (h : ∀ t ∈ store, cond t = false) :
    findOneAndDelete store cond = (none, store) := by
  induction store with
  | nil => rfl
  | cons a as ih =>
    unfold findOneAndDelete
    rw [h a (by simp)]
    simp only [Bool.false_eq_true, if_false]
    rw [ih (fun t ht => h t (List.mem_cons_of_mem _ ht))]

/-- A document returned by `findOneAndUpdate` is the image under the update
of some stored record satisfying the condition. -/
theorem findOneAndUpdate_found {store : List Task} {cond : Task → Bool}
    {f : Task → Task} {t' : Task}
    (h : (findOneAndUpdate store cond f).1 = some t') :
    ∃ t0 ∈ store, cond t0 = true ∧ t' = f t0 := by
  induction store with
  | nil => simp [findOneAndUpdate] at h
  | cons a as ih =>
    unfold findOneAndUpdate at h
    by_cases hc : cond a = true
    · simp only [hc, if_true, Option.some.injEq] at h
      exact ⟨a, by simp, hc, h.symm⟩
    · simp only [hc, Bool.false_eq_true, if_false] at h
      obtain ⟨t0, ht0, hcond, he⟩ := ih h
      exact ⟨t0, List.mem_cons_of_mem _ ht0, hcond, he⟩

/-- Any projection the update function preserves on matching records is
preserved across the whole store by `findOneAndUpdate`. -/
theorem findOneAndUpdate_map {α : Type} (g : Task → α) {store : List Task}
    {cond : Task → Bool} {f : Task → Task}
    (hf : ∀ t, cond t = true → g (f t) = g t) :
    ((findOneAndUpdate store cond f).2).map g = store.map g := by
  induction store with
  | nil => rfl
  | cons a as ih =>
    unfold findOneAndUpdate
    by_cases hc : cond a = true
    · simp [hc, hf a hc]
    · simp only [hc, Bool.false_eq_true, if_false, List.map_cons]
      rw [ih]

/-- The fields of `applyUpdates b now t`: each absent body field leaves the
stored value alone, `id` and `createdAt` are untouched, `updatedAt` is
refreshed. -/
theorem applyUpdates_unsupplied (b : UpdateBody) (now : Int) (t : Task) :
    (b.user = none → (applyUpdates b now t).user = t.user) ∧
    (b.title = none → (applyUpdates b now t).title = t.title) ∧
    (b.description = none →
      (applyUpdates b now t).description = t.description) ∧
    (b.completed = none → (applyUpdates b now t).completed = t.completed) ∧
    (b.priority = none → (applyUpdates b now t).priority = t.priority) ∧
    (b.dueDate = none → (applyUpdates b now t).dueDate = t.dueDate) ∧
    (applyUpdates b now t).id = t.id ∧
    (applyUpdates b now t).createdAt = t.createdAt ∧
    (applyUpdates b now t).updatedAt = now := by
  refine ⟨fun h => ?_, fun h => ?_, fun h => ?_, fun h => ?_, fun h => ?_,
    fun h => ?_, rfl, rfl, rfl⟩ <;> simp [applyUpdates, h]

/-- C7: with a well-formed id and a valid body, a PUT or DELETE whose id
matches no task of the requester — because no task has that id, or because
the task belongs to someone else — yields 404 with the same response shape
and leaves the store untouched. -/
theorem put_delete_not_found (store : List Task) (owner id : String)
    (b : UpdateBody) (now : Int)
    (hv : updateValidationErrors id b = [])
    (hmiss : ∀ t ∈ store, ¬(t.id = id ∧ t.user = owner)) :
    putTask store owner id b now =
      { status := 404, task := none, errors := [], store := store } ∧
    deleteTask store owner id =
      { status := 404, task := none, errors := [], store := store } := by
  have hcond : ∀ t ∈ store, (t.id == id && t.user == owner) = false := by
    intro t ht
    rw [Bool.eq_false_iff]
    intro hx
    exact hmiss t ht (by simpa [Bool.and_eq_true, beq_iff_eq] using hx)
  have hd : isMongoId id = true := by
    by_cases hm : isMongoId id
    · exact hm
    · unfold updateValidationErrors at hv
      simp [hm] at hv
  constructor
  · unfold putTask
    rw [hv]
    simp only [List.isEmpty_nil, if_true]
    rw [findOneAndUpdate_no_match hcond]
  · unfold deleteTask
    have h2 : deleteValidationErrors id = [] := by
      simp [deleteValidationErrors, hd]
    rw [h2]
    simp only [List.isEmpty_nil, if_true]
    rw [findOneAndDelete_no_match hcond]

theorem put_delete_not_found_witness :
    (putTask [sampleTask] "bob" "aaaaaaaaaaaaaaaaaaaaaaaa" emptyUpdate 9 =
      { status := 404, task := none, errors := [],
        store := [sampleTask] }) ∧
    (deleteTask [sampleTask] "bob" "aaaaaaaaaaaaaaaaaaaaaaaa" =
      { status := 404, task := none, errors := [],
        store := [sampleTask] }) :=
  put_delete_not_found [sampleTask] "bob" "aaaaaaaaaaaaaaaaaaaaaaaa"
    emptyUpdate 9 (by decide) (by decide)

/-- C8: a PUT or DELETE whose id does not have the store's native 24-hex
identifier shape fails validation with 400 — never 404 — and the store is
not touched. -/
theorem put_delete_malformed_id (store : List Task) (owner id : String)
    (b : UpdateBody) (now : Int) (h : isMongoId id = false) :
    (putTask store owner id b now).status = 400 ∧
    (putTask store owner id b now).store = store ∧
    (putTask store owner id b now).task = none ∧
    (deleteTask store owner id).status = 400 ∧
    (deleteTask store owner id).store = store ∧
    (deleteTask store owner id).task = none := by
  have h1 : (updateValidationErrors id b).isEmpty = false := by
    unfold updateValidationErrors
    simp [h]
  have h2 : deleteValidationErrors id = ["id"] := by
    simp [deleteValidationErrors, h]
  refine ⟨?_, ?_, ?_, ?_, ?_, ?_⟩ <;>
    simp [putTask, deleteTask, h1, h2]

theorem put_delete_malformed_id_witness :
    (putTask [sampleTask] "alice" "zz" emptyUpdate 9).status = 400 ∧
    (putTask [sampleTask] "alice" "zz" emptyUpdate 9).store =
      [sampleTask] ∧
    (putTask [sampleTask] "alice" "zz" emptyUpdate 9).task = none ∧
    (deleteTask [sampleTask] "alice" "zz").status = 400 ∧
    (deleteTask [sampleTask] "alice" "zz").store = [sampleTask] ∧
    (deleteTask [sampleTask] "alice" "zz").task = none :=
  put_delete_malformed_id [sampleTask] "alice" "zz" emptyUpdate 9
    (by decide)

/-- C9 counterexample: the update handler passes the whole request body to
the store, so a body carrying a `user` value rewrites the owner — the PUT
by `"alice"` on her own task returns the task re-owned by `"bob"`. -/
theorem putTask_body_user_changes_owner :
    sampleTask.user = "alice" ∧
    ((putTask [sampleTask] "alice" "aaaaaaaaaaaaaaaaaaaaaaaa"
        ownerOverwriteBody 9).task.map (fun t => t.user)) = some "bob" :=
  ⟨by decide, by decide⟩

/-- C9 amended: a successful PUT changes only the supplied body fields
(`updatedAt` excepted, which is refreshed), and the owner is unchanged
provided the body does not itself supply a `user` value; a supplied `user`
value does overwrite the owner. -/
theorem putTask_updates_only_supplied_fields (store : List Task)
    (owner id : String) (b : UpdateBody) (now : Int) (hu : b.user = none) :
    ((putTask store owner id b now).store.map (fun t => t.user) =
        store.map (fun t => t.user)) ∧
    ((putTask store owner id b now).store.map (fun t => t.id) =
        store.map (fun t => t.id)) ∧
    ((putTask store owner id b now).store.map (fun t => t.createdAt) =
        store.map (fun t => t.createdAt)) ∧
    (b.title = none →
      (putTask store owner id b now).store.map (fun t => t.title) =
        store.map (fun t => t.title)) ∧
    (b.description = none →
      (putTask store owner id b now).store.map (fun t => t.description) =
        store.map (fun t => t.description)) ∧
    (b.completed = none →
      (putTask store owner id b now).store.map (fun t => t.completed) =
        store.map (fun t => t.completed)) ∧
    (b.priority = none →
      (putTask store owner id b now).store.map (fun t => t.priority) =
        store.map (fun t => t.priority)) ∧
    (b.dueDate = none →
      (putTask store owner id b now).store.map (fun t => t.dueDate) =
        store.map (fun t => t.dueDate)) ∧
    (∀ t', (putTask store owner id b now).task = some t' →
      t'.user = owner ∧ t'.updatedAt = now) := by
  by_cases hv : (updateValidationErrors id b).isEmpty
  · have hstore : (putTask store owner id b now).store =
        (findOneAndUpdate store (fun t => t.id == id && t.user == owner)
          (applyUpdates b now)).2 := by
      unfold putTask
      simp only [hv, if_true]
      rcases (findOneAndUpdate store
        (fun t => t.id == id && t.user == owner) (applyUpdates b now)).1
        with _ | t <;> rfl
    have htask : (putTask store owner id b now).task =
        (findOneAndUpdate store (fun t => t.id == id && t.user == owner)
          (applyUpdates b now)).1 := by
      unfold putTask
      simp only [hv, if_true]
      rcases (findOneAndUpdate store
        (fun t => t.id == id && t.user == owner) (applyUpdates b now)).1
        with _ | t <;> rfl
    rw [hstore, htask]
    refine ⟨?_, ?_, ?_, fun h => ?_, fun h => ?_, fun h => ?_, fun h => ?_,
      fun h => ?_, fun t' ht' => ?_⟩
    · exact findOneAndUpdate_map _
        (fun t _ => (applyUpdates_unsupplied b now t).1 hu)
    · exact findOneAndUpdate_map _
        (fun t _ => (applyUpdates_unsupplied b now t).2.2.2.2.2.2.1)
    · exact findOneAndUpdate_map _
        (fun t _ => (applyUpdates_unsupplied b now t).2.2.2.2.2.2.2.1)
    · exact findOneAndUpdate_map _
        (fun t _ => (applyUpdates_unsupplied b now t).2.1 h)
    · exact findOneAndUpdate_map _
        (fun t _ => (applyUpdates_unsupplied b now t).2.2.1 h)
    · exact findOneAndUpdate_map _
        (fun t _ => (applyUpdates_unsupplied b now t).2.2.2.1 h)
    · exact findOneAndUpdate_map _
        (fun t _ => (applyUpdates_unsupplied b now t).2.2.2.2.1 h)
    · exact findOneAndUpdate_map _
        (fun t _ => (applyUpdates_unsupplied b now t).2.2.2.2.2.1 h)
    · obtain ⟨t0, _, hcond, he⟩ := findOneAndUpdate_found ht'
      have hown : t0.user = owner := by
        have hc := hcond
        simp only [Bool.and_eq_true, beq_iff_eq] at hc
        exact hc.2
      subst he
      exact ⟨((applyUpdates_unsupplied b now t0).1 hu).trans hown,
        (applyUpdates_unsupplied b now t0).2.2.2.2.2.2.2.2⟩
  · have hput : putTask store owner id b now =
        { status := 400, task := none,
          errors := updateValidationErrors id b, store := store } := by
      unfold putTask
      simp only [hv, Bool.false_eq_true, if_false]
    rw [hput]
    exact ⟨rfl, rfl, rfl, fun _ => rfl, fun _ => rfl, fun _ => rfl,
      fun _ => rfl, fun _ => rfl, fun t' ht' => by simp at ht'⟩

theorem putTask_updates_only_supplied_fields_witness :
    ((putTask [sampleTask] "alice" "aaaaaaaaaaaaaaaaaaaaaaaa" emptyUpdate
        9).store.map (fun t => t.user) =
      [sampleTask].map (fun t => t.user)) :=
  (putTask_updates_only_supplied_fields [sampleTask] "alice"
    "aaaaaaaaaaaaaaaaaaaaaaaa" emptyUpdate 9 rfl).1

/-- C10: the create handler reads only `title`, `description`, `priority`
and `dueDate` from the body — a supplied `completed` or `user` value is
ignored, and every created task has `completed == false` and the
authenticated requester as owner. -/
theorem postTask_reads_only_known_fields (store : List Task)
    (owner : String) (b : CreateBody) (newId : String) (now : Int) :
    (postTask store owner b newId now =
      postTask store owner
        { b with completed := none, user := none } newId now) ∧
    (∀ t, (postTask store owner b newId now).task = some t →
      t.completed = false ∧ t.user = owner) := by
  constructor
  · rfl
  · intro t ht
    unfold postTask at ht
    by_cases h : (createValidationErrors b).isEmpty
    · simp only [h, if_true, Option.some.injEq] at ht
      rw [← ht]
      exact ⟨rfl, rfl⟩
    · simp [h] at ht

theorem postTask_reads_only_known_fields_witness :
    sneakyCreatedTask.completed = false ∧
    sneakyCreatedTask.user = "alice" :=
  (postTask_reads_only_known_fields [] "alice" sneakyCreateBody "b" 5).2
    sneakyCreatedTask (by decide)

end TodoApp
